import Mathlib

/-!
Shallow embedding of the process-supervision core of the
Glixhito/Server-Minecraft repository (src/server_manager.py and the
server-control functions of src/admin_panel.py), together with proofs of
the frozen claims about it.

OS nondeterminism (spawn success, process-table polls, stdin-write
success, the concurrently running output-capture thread) is passed in as
explicit environment records; each public operation returns its Python
return value, the successor supervisor state, and a trace of the
externally visible effects it performed (spawn, stdin writes, signals,
sleeps).  Machine-level concurrency is sequentialised: the capture
thread's mutations are separate transition events, and the snapshots the
readiness loop of `start` reads are supplied by the environment.
-/

/-- Externally visible effects of the supervisor operations:
process spawn, a stdin write attempt (`send_command`'s write+flush of one
command line), a `poll()` of the OS process table, `terminate()`,
`kill()`, and `time.sleep(n)`. -/
inductive Eff : Type where
  | spawn : Eff
  | cmd : String → Eff
  | poll : Eff
  | terminate : Eff
  | kill : Eff
  | sleep : Nat → Eff
deriving DecidableEq, Repr

/-- Number of occurrences of effect `e` in a trace. -/
def countEff (e : Eff) : List Eff → Nat
  | [] => 0
  | x :: tr => (if x = e then 1 else 0) + countEff e tr

/-- Total time slept along a trace. -/
def sleepSum : List Eff → Nat
  | [] => 0
  | Eff.sleep n :: tr => n + sleepSum tr
  | _ :: tr => sleepSum tr

theorem countEff_append (e : Eff) (a b : List Eff) :
    countEff e (a ++ b) = countEff e a + countEff e b := by
  induction a with
  | nil => simp [countEff]
  | cons x xs ih => simp [countEff, ih]; omega

theorem sleepSum_append (a b : List Eff) :
    sleepSum (a ++ b) = sleepSum a + sleepSum b := by
  induction a with
  | nil => simp [sleepSum]
  | cons x xs ih => cases x <;> simp [sleepSum, ih] <;> omega

/-! ## The console-output ring (src/server_manager.py `_capture_output`,
src/admin_panel.py `read_server_output`) -/

/-- One append step of `MinecraftServer._capture_output`:
`console_log.append(line)` followed by `pop(0)` when the length exceeds
`max_console_lines` (the instance field, 1000 by default). -/
def ringAppend (cap : Nat) (log : List String) (line : String) : List String :=
  let log2 := log ++ [line]
  if cap < log2.length then log2.drop 1 else log2

/-- One append step of `admin_panel.read_server_output`: `pop(0)` first
when the buffer already holds at least 100 lines, then append. -/
def adminRingAppend (buf : List String) (line : String) : List String :=
  (if 100 ≤ buf.length then buf.drop 1 else buf) ++ [line]

/-- The last `n` elements of a list. -/
def takeLast (n : Nat) (xs : List α) : List α := xs.drop (xs.length - n)

theorem takeLast_length (n : Nat) (xs : List α) :
    (takeLast n xs).length = min n xs.length := by
  simp [takeLast]; omega

theorem takeLast_of_le (n : Nat) (xs : List α) (h : xs.length ≤ n) :
    takeLast n xs = xs := by
  simp [takeLast, Nat.sub_eq_zero_of_le h]

/-- Absorption of `takeLast` under appending one element. -/
theorem takeLast_append_singleton (n : Nat) (xs : List α) (y : α) :
    takeLast n (takeLast n xs ++ [y]) = takeLast n (xs ++ [y]) := by
  rcases Nat.lt_or_ge xs.length n with hlt | hge
  · rw [takeLast_of_le n xs (Nat.le_of_lt hlt)]
  · rcases Nat.eq_zero_or_pos n with hn | hn
    · subst hn
      have h1 : takeLast 0 xs = [] := by
        simp [takeLast]
      rw [h1]
      have h2 : takeLast 0 ([] ++ [y] : List α) = [] := by
        simp [takeLast]
      have h3 : takeLast 0 (xs ++ [y]) = [] := by
        simp [takeLast]
      rw [h2, h3]
    · -- 1 ≤ n ≤ xs.length
      unfold takeLast
      have hd : (List.drop (xs.length - n) xs).length = n := by
        rw [List.length_drop]; omega
      simp only [List.length_append, List.length_cons, List.length_nil, hd,
        Nat.zero_add]
      have e1 : n + 1 - n = 1 := by omega
      have e2 : xs.length + 1 - n = xs.length - n + 1 := by omega
      rw [e1, e2]
      rw [List.drop_append_eq_append_drop, List.drop_append_eq_append_drop]
      rw [hd, List.drop_drop]
      have e3 : (1 : Nat) - n = 0 := by omega
      have e4 : xs.length - n + 1 - xs.length = 0 := by omega
      rw [e3, e4]

/-- The server ring step equals "keep the last `cap` lines", provided the
buffer respects the bound coming in. -/
theorem ringAppend_eq_takeLast (cap : Nat) (log : List String) (l : String)
    (h : log.length ≤ cap) :
    ringAppend cap log l = takeLast cap (log ++ [l]) := by
  unfold ringAppend takeLast
  simp only [List.length_append, List.length_cons, List.length_nil]
  rcases Nat.lt_or_ge cap (log.length + (0 + 1)) with hlt | hge
  · have hc : log.length = cap := by omega
    rw [if_pos hlt]
    have : log.length + (0 + 1) - cap = 1 := by omega
    rw [this]
  · rw [if_neg (by omega)]
    have : log.length + (0 + 1) - cap = 0 := by omega
    rw [this]
    rfl

/-- The admin ring step equals "keep the last 100 lines", provided the
buffer respects the bound coming in. -/
theorem adminRingAppend_eq_takeLast (buf : List String) (l : String)
    (h : buf.length ≤ 100) :
    adminRingAppend buf l = takeLast 100 (buf ++ [l]) := by
  unfold adminRingAppend takeLast
  simp only [List.length_append, List.length_cons, List.length_nil]
  rcases Nat.lt_or_ge buf.length 100 with hlt | hge
  · rw [if_neg (by omega)]
    have : buf.length + (0 + 1) - 100 = 0 := by omega
    rw [this]
    rfl
  · have hc : buf.length = 100 := by omega
    rw [if_pos (by omega)]
    have e1 : buf.length + (0 + 1) - 100 = 1 := by omega
    rw [e1, List.drop_append_eq_append_drop]
    have e2 : (1 : Nat) - buf.length = 0 := by omega
    rw [e2]
    rfl

/-- Folding the server ring step from any in-bounds buffer keeps exactly
the last `cap` lines of everything ever appended. -/
theorem foldl_ringAppend (cap : Nat) (ls : List String) :
    ∀ acc : List String, acc.length ≤ cap →
      List.foldl (ringAppend cap) acc ls = takeLast cap (acc ++ ls) := by
  induction ls using List.reverseRecOn with
  | nil =>
    intro acc hacc
    simp [takeLast_of_le cap acc hacc]
  | append_singleton xs x ih =>
    intro acc hacc
    rw [← List.append_assoc]
    rw [List.foldl_append]
    rw [ih acc hacc]
    simp only [List.foldl_cons, List.foldl_nil]
    rw [ringAppend_eq_takeLast cap _ x (by rw [takeLast_length]; omega)]
    exact takeLast_append_singleton cap (acc ++ xs) x

/-- Folding the admin ring step from any in-bounds buffer keeps exactly
the last 100 lines of everything ever appended. -/
theorem foldl_adminRingAppend (ls : List String) :
    ∀ acc : List String, acc.length ≤ 100 →
      List.foldl adminRingAppend acc ls = takeLast 100 (acc ++ ls) := by
  induction ls using List.reverseRecOn with
  | nil =>
    intro acc hacc
    simp [takeLast_of_le 100 acc hacc]
  | append_singleton xs x ih =>
    intro acc hacc
    rw [← List.append_assoc]
    rw [List.foldl_append]
    rw [ih acc hacc]
    simp only [List.foldl_cons, List.foldl_nil]
    rw [adminRingAppend_eq_takeLast _ x (by rw [takeLast_length]; omega)]
    exact takeLast_append_singleton 100 (acc ++ xs) x

/-! ## Supervisor state (src/server_manager.py, class MinecraftServer) -/

/-- The mutable fields of a `MinecraftServer` instance that the claims
are about.  A process handle is identified by its pid; the output thread
by the pid of the generation it reads. -/
structure ServerState where
  process : Option Nat
  is_running : Bool
  output_thread : Option Nat
  console_log : List String
  max_console_lines : Nat
deriving DecidableEq, Repr

namespace MinecraftServer

/-- `MinecraftServer.__init__`: no process, not running, empty console
log, `max_console_lines = 1000`. -/
def initState : ServerState :=
  { process := none
    is_running := false
    output_thread := none
    console_log := []
    max_console_lines := 1000 }

/-- Python `"Done" in line` / `"For help, type" in line`: substring
containment over the characters of the line. -/
def startsWithChars : List Char → List Char → Bool
  | [], _ => true
  | _ :: _, [] => false
  | a :: pa, b :: pb => if a = b then startsWithChars pa pb else false

def containsChars (pat : List Char) : List Char → Bool
  | [] => pat.isEmpty
  | b :: bs => startsWithChars pat (b :: bs) || containsChars pat bs

def strContains (s pat : String) : Bool := containsChars pat.toList s.toList

/-- The readiness test of `start`'s wait loop:
`"Done" in line and "For help, type" in line`. -/
def isReadyLine (line : String) : Bool :=
  strContains line "Done" && strContains line "For help, type"

/-- Scan of the console log performed once per wait-loop iteration. -/
def scanReady (log : List String) : Bool := log.any isReadyLine

/-- Environment for one `start` call: whether `subprocess.Popen`
succeeds, the pid of the new process, and — since the capture thread
runs concurrently with the wait loop — the value of `self.is_running`
and the snapshot of `self.console_log` that iteration `i` of the wait
loop observes. -/
structure StartEnv where
  spawnOk : Bool
  newPid : Nat
  aliveAt : Nat → Bool
  logAt : Nat → List String

inductive StartOutcome : Type where
  | died : StartOutcome
  | ready : StartOutcome
  | timeout : StartOutcome
deriving DecidableEq, Repr

/-- The wait loop of `start` (`for _ in range(max_wait_time)`): at
iteration `i` it first checks `self.is_running`, returning `False` if
the capture thread cleared it; then scans the console log for the
readiness sentinel, breaking on a match; otherwise sleeps one unit. -/
def startWait (env : StartEnv) : Nat → Nat → StartOutcome
  | _, 0 => StartOutcome.timeout
  | i, fuel + 1 =>
    if env.aliveAt i = false then StartOutcome.died
    else if scanReady (env.logAt i) then StartOutcome.ready
    else startWait env (i + 1) fuel

/-- `MinecraftServer.start`.  Returns the Python return value, the
successor state, and the effect trace.  If already running it returns
`True` immediately.  Otherwise it spawns the process (on spawn failure
the `except` clause sets `is_running = False` and returns `False`),
marks itself running, starts the output thread, and runs the 60-unit
wait loop; both the sentinel-found and the timed-out exits of the loop
return `True`, and the only `False` exit is the loop observing that the
capture thread cleared `is_running`.  `start` itself never writes
`console_log`; the capture thread's appends are separate events. -/
def start (env : StartEnv) (s : ServerState) : Bool × ServerState × List Eff :=
  if s.is_running then (true, s, [])
  else if env.spawnOk = false then
    (false, { s with is_running := false }, [])
  else
    let s1 := { s with
      process := some env.newPid
      is_running := true
      output_thread := some env.newPid }
    match startWait env 0 60 with
    | StartOutcome.died => (false, { s1 with is_running := false }, [Eff.spawn])
    | StartOutcome.ready => (true, s1, [Eff.spawn])
    | StartOutcome.timeout => (true, s1, [Eff.spawn])

/-- Environment for one `send_command` call: whether the
`stdin.write`/`flush` pair succeeds (it raises on a broken pipe). -/
structure CmdEnv where
  writeOk : Bool

/-- `MinecraftServer.send_command`: guard on `is_running` and `process`,
then write the command line to stdin and flush; an exception from the
write is caught and turned into `False` — the state is not touched. -/
def send_command (env : CmdEnv) (c : String) (s : ServerState) :
    Bool × ServerState × List Eff :=
  if s.is_running = false ∨ s.process = none then (false, s, [])
  else if env.writeOk then (true, s, [Eff.cmd c])
  else (false, s, [Eff.cmd c])

/-- Environment for one `stop` call: the result of the `k`-th
`process.poll()` in the grace loop (`true` = the process has exited) and
the result of the poll after `terminate()`+sleep. -/
structure StopEnv where
  pollAt : Nat → Bool
  exitedAfterTerm : Bool

/-- The grace loop of `stop` (`for _ in range(timeout)`): poll, return
on exit, else sleep one unit.  Returns whether exit was observed and the
trace of polls and sleeps. -/
def stopGrace (poll : Nat → Bool) : Nat → Nat → Bool × List Eff
  | _, 0 => (false, [])
  | k, fuel + 1 =>
    if poll k then (true, [Eff.poll])
    else
      let r := stopGrace poll (k + 1) fuel
      (r.1, Eff.poll :: Eff.sleep 1 :: r.2)

/-- `MinecraftServer.stop(timeout)`: no-op `True` when not running or no
process; otherwise `send_command("save-all")`, sleep 2,
`send_command("stop")`, the grace loop, and on grace-loop exhaustion
`terminate()`, sleep 2, a final poll and `kill()` if still alive.  Every
path sets `is_running = False` and returns `True`; the stale `process`
handle is never cleared. -/
def stop (env : StopEnv) (timeout : Nat) (s : ServerState) :
    Bool × ServerState × List Eff :=
  if s.is_running = false ∨ s.process = none then (true, s, [])
  else if (stopGrace env.pollAt 0 timeout).1 then
    (true, { s with is_running := false },
      [Eff.cmd "save-all", Eff.sleep 2, Eff.cmd "stop"] ++
        (stopGrace env.pollAt 0 timeout).2)
  else
    (true, { s with is_running := false },
      [Eff.cmd "save-all", Eff.sleep 2, Eff.cmd "stop"] ++
        (stopGrace env.pollAt 0 timeout).2 ++
        ([Eff.terminate, Eff.sleep 2, Eff.poll] ++
          (if env.exitedAfterTerm then [] else [Eff.kill])))

/-- `MinecraftServer.is_server_running`: `False` on the in-memory guard;
otherwise poll the OS (`exited = true` means `poll()` returned an exit
code), correcting `is_running` to `False` when the process has exited. -/
def is_server_running (exited : Bool) (s : ServerState) : Bool × ServerState :=
  if s.is_running = false ∨ s.process = none then (false, s)
  else if exited then (false, { s with is_running := false })
  else (true, s)

/-- One line handled by the capture thread (`_capture_output`): append
to the console ring. -/
def capture_append (line : String) (s : ServerState) : ServerState :=
  { s with console_log := ringAppend s.max_console_lines s.console_log line }

/-- The capture thread reaching end-of-stream or an error
(`_capture_output`'s tail): it clears `is_running`. -/
def capture_eof (s : ServerState) : ServerState :=
  { s with is_running := false }

/-- Python-level outcome of a call that may raise: either an ordinary
return value or an uncaught exception. -/
inductive PyResult (α : Type) : Type where
  | ok : α → PyResult α
  | raised : String → PyResult α
deriving DecidableEq, Repr

/-- Environment for one `backup_world` call. -/
structure BackupEnv where
  worldExists : Bool
  makedirsOk : Bool
  zipOk : Bool
  timestamp : String

/-- `MinecraftServer.backup_world(backup_dir)`: returns `None` when the
world directory is missing; then calls `os.makedirs(backup_dir,
exist_ok=True)` OUTSIDE the try block, so a failure there (e.g.
`backup_dir` names an existing regular file) propagates as an uncaught
exception; inside the try block it saves the world first when
`is_running` (via `send_command`, then sleeps 5) and archives, returning
the archive path, or `None` when the archiving raises. -/
def backup_world (env : BackupEnv) (backup_dir : String) (s : ServerState) :
    PyResult (Option String) × List Eff :=
  if env.worldExists = false then (PyResult.ok none, [])
  else if env.makedirsOk = false then
    (PyResult.raised "os.makedirs", [])
  else
    let saveEffs :=
      if s.is_running then
        (send_command { writeOk := true } "save-all" s).2.2 ++ [Eff.sleep 5]
      else []
    if env.zipOk then
      (PyResult.ok (some
        (backup_dir ++ "/world_backup_" ++ env.timestamp ++ ".zip")), saveEffs)
    else (PyResult.ok none, saveEffs)

/-- States reachable from a fresh `MinecraftServer()` by any interleaving
of the public operations and the capture thread's events.  `restart` is
`stop` followed by `start` and `backup_world` never writes the
supervisor fields, so both are covered by the constructors below. -/
inductive Reachable : ServerState → Prop where
  | init : Reachable initState
  | step_start (env : StartEnv) (s : ServerState) :
      Reachable s → Reachable (start env s).2.1
  | step_stop (env : StopEnv) (t : Nat) (s : ServerState) :
      Reachable s → Reachable (stop env t s).2.1
  | step_send (env : CmdEnv) (c : String) (s : ServerState) :
      Reachable s → Reachable (send_command env c s).2.1
  | step_check (exited : Bool) (s : ServerState) :
      Reachable s → Reachable (is_server_running exited s).2
  | step_capture (line : String) (s : ServerState) :
      Reachable s → Reachable (capture_append line s)
  | step_eof (s : ServerState) :
      Reachable s → Reachable (capture_eof s)

end MinecraftServer

/-! ## Admin panel (src/admin_panel.py, module-level globals) -/

namespace AdminPanel

/-- The admin panel's global server state: `server_process` and
`server_output_buffer`. -/
structure AdminState where
  server_process : Option Nat
  server_output_buffer : List String
deriving DecidableEq, Repr

/-- `admin_panel.is_server_running`: `False` when `server_process is
None`, else whether `poll()` returned `None` (`alive`). -/
def is_server_running (alive : Bool) (st : AdminState) : Bool :=
  match st.server_process with
  | none => false
  | some _ => alive

/-- `admin_panel.start_server`: no-op `True` when `is_server_running()`;
otherwise resets the output buffer, spawns (exceptions from
`chdir`/`open`/`Popen` are caught and give `False`), and starts the
reader thread. -/
def start_server (alive spawnOk : Bool) (newPid : Nat) (st : AdminState) :
    Bool × AdminState × List Eff :=
  if is_server_running alive st then (true, st, [])
  else if spawnOk then
    (true, { server_process := some newPid, server_output_buffer := [] },
      [Eff.spawn])
  else (false, { st with server_output_buffer := [] }, [])

/-- `admin_panel.send_command`: guard on `is_server_running()`, then
write+flush; a raising write is caught and gives `False`. -/
def send_command (alive writeOk : Bool) (c : String) (st : AdminState) :
    Bool × AdminState × List Eff :=
  if is_server_running alive st = false then (false, st, [])
  else if writeOk then (true, st, [Eff.cmd c])
  else (false, st, [Eff.cmd c])

end AdminPanel

/-! ## Concrete fixtures used by witnesses and counterexamples -/

/-- A start environment whose capture thread stays alive and never logs
the readiness sentinel. -/
def envT : MinecraftServer.StartEnv :=
  ⟨true, 1, fun _ => true, fun _ => []⟩

/-- A start environment that logs the readiness sentinel at once. -/
def envReady : MinecraftServer.StartEnv :=
  ⟨true, 1, fun _ => true, fun _ => ["Done! For help, type help"]⟩

/-- A stop environment whose very first poll reports the process gone. -/
def envStopFast : MinecraftServer.StopEnv :=
  ⟨fun _ => true, true⟩

/-- A supervisor state that is running process 1. -/
def sRun : ServerState :=
  { MinecraftServer.initState with is_running := true, process := some 1 }

/-- An admin-panel state holding a process handle. -/
def adminRun : AdminPanel.AdminState := ⟨some 1, []⟩

/-- The supervisor state after a successful `start` followed by a
graceful `stop`: the stale process handle survives the stop. -/
def sStopped : ServerState :=
  (MinecraftServer.stop envStopFast 30
    (MinecraftServer.start envReady MinecraftServer.initState).2.1).2.1

/-! ## Helper lemmas about the wait and grace loops -/

theorem startWait_timeout (env : MinecraftServer.StartEnv) :
    ∀ fuel i,
      (∀ j, i ≤ j → j < i + fuel →
        env.aliveAt j = true ∧ MinecraftServer.scanReady (env.logAt j) = false) →
      MinecraftServer.startWait env i fuel = MinecraftServer.StartOutcome.timeout := by
  intro fuel
  induction fuel with
  | zero => intro i _; rfl
  | succ n ih =>
    intro i h
    have h0 := h i (Nat.le_refl i) (by omega)
    unfold MinecraftServer.startWait
    rw [h0.1, h0.2]
    simp only [Bool.true_eq_false, Bool.false_eq_true, if_false]
    exact ih (i + 1) fun j hj1 hj2 => h j (by omega) (by omega)

theorem stopGrace_exits_iff (poll : Nat → Bool) :
    ∀ fuel i,
      (MinecraftServer.stopGrace poll i fuel).1 = true ↔
        ∃ k, k < fuel ∧ poll (i + k) = true := by
  intro fuel
  induction fuel with
  | zero =>
    intro i
    simp [MinecraftServer.stopGrace]
  | succ n ih =>
    intro i
    unfold MinecraftServer.stopGrace
    by_cases hp : poll i = true
    · rw [if_pos hp]
      constructor
      · intro _
        refine ⟨0, by omega, ?_⟩
        simpa using hp
      · intro _
        rfl
    · rw [if_neg hp]
      show (MinecraftServer.stopGrace poll (i + 1) n).1 = true ↔
        ∃ k, k < n + 1 ∧ poll (i + k) = true
      rw [ih (i + 1)]
      constructor
      · rintro ⟨k, hk, hpk⟩
        refine ⟨k + 1, by omega, ?_⟩
        have e : i + (k + 1) = i + 1 + k := by omega
        rw [e]
        exact hpk
      · rintro ⟨k, hk, hpk⟩
        cases k with
        | zero => exact absurd (by simpa using hpk) hp
        | succ k =>
          refine ⟨k, by omega, ?_⟩
          have e : i + 1 + k = i + (k + 1) := by omega
          rw [e]
          exact hpk

/-- The trace of a grace loop that never observes exit: `timeout`
poll/sleep pairs. -/
def graceTrace : Nat → List Eff
  | 0 => []
  | n + 1 => Eff.poll :: Eff.sleep 1 :: graceTrace n

theorem stopGrace_trace_timeout (poll : Nat → Bool) :
    ∀ fuel i, (∀ k, k < fuel → poll (i + k) = false) →
      MinecraftServer.stopGrace poll i fuel = (false, graceTrace fuel) := by
  intro fuel
  induction fuel with
  | zero => intro i _; rfl
  | succ n ih =>
    intro i h
    have h0 : poll i = false := by simpa using h 0 (by omega)
    unfold MinecraftServer.stopGrace
    rw [h0]
    simp only [Bool.false_eq_true, if_false, graceTrace]
    rw [ih (i + 1) (fun k hk => by
      have : i + 1 + k = i + (k + 1) := by omega
      rw [this]; exact h (k + 1) (by omega))]

theorem countEff_cons (x e : Eff) (tr : List Eff) :
    countEff e (x :: tr) = (if x = e then 1 else 0) + countEff e tr := rfl

theorem stopGrace_counts (poll : Nat → Bool) :
    ∀ fuel i,
      countEff Eff.terminate (MinecraftServer.stopGrace poll i fuel).2 = 0 ∧
      countEff Eff.kill (MinecraftServer.stopGrace poll i fuel).2 = 0 ∧
      countEff Eff.poll (MinecraftServer.stopGrace poll i fuel).2 ≤ fuel ∧
      sleepSum (MinecraftServer.stopGrace poll i fuel).2 ≤ fuel := by
  intro fuel
  induction fuel with
  | zero => intro i; simp [MinecraftServer.stopGrace, countEff, sleepSum]
  | succ n ih =>
    intro i
    obtain ⟨h1, h2, h3, h4⟩ := ih (i + 1)
    unfold MinecraftServer.stopGrace
    by_cases hp : poll i = true
    · rw [if_pos hp]
      have e1 : countEff Eff.terminate [Eff.poll] = 0 := by decide
      have e2 : countEff Eff.kill [Eff.poll] = 0 := by decide
      refine ⟨e1, e2, ?_, ?_⟩
      · show countEff Eff.poll [Eff.poll] ≤ n + 1
        have e3 : countEff Eff.poll [Eff.poll] = 1 := by decide
        omega
      · show sleepSum [Eff.poll] ≤ n + 1
        have e4 : sleepSum [Eff.poll] = 0 := by decide
        omega
    · rw [if_neg hp]
      refine ⟨?_, ?_, ?_, ?_⟩
      · show countEff Eff.terminate
          (Eff.poll :: Eff.sleep 1 :: (MinecraftServer.stopGrace poll (i + 1) n).2) = 0
        rw [countEff_cons, countEff_cons, h1]
        decide
      · show countEff Eff.kill
          (Eff.poll :: Eff.sleep 1 :: (MinecraftServer.stopGrace poll (i + 1) n).2) = 0
        rw [countEff_cons, countEff_cons, h2]
        decide
      · show countEff Eff.poll
          (Eff.poll :: Eff.sleep 1 :: (MinecraftServer.stopGrace poll (i + 1) n).2) ≤ n + 1
        rw [countEff_cons, countEff_cons]
        have e5 : (if Eff.poll = Eff.poll then 1 else 0) = 1 := by decide
        have e6 : (if Eff.sleep 1 = Eff.poll then 1 else 0) = 0 := by decide
        rw [e5, e6]
        omega
      · show sleepSum
          (Eff.poll :: Eff.sleep 1 :: (MinecraftServer.stopGrace poll (i + 1) n).2) ≤ n + 1
        have e7 : sleepSum
            (Eff.poll :: Eff.sleep 1 :: (MinecraftServer.stopGrace poll (i + 1) n).2) =
            1 + sleepSum (MinecraftServer.stopGrace poll (i + 1) n).2 := by
          simp [sleepSum]
        omega

/-! ## Claims -/

/-- C1: calling `start()` while the server is already running returns
success immediately, spawns no second child process, and leaves the
existing process handle, output thread, and console log untouched
(`MinecraftServer.start` returns `True` from its `is_running` guard with
the state unchanged and an empty effect trace; `admin_panel.start_server`
does the same from its `is_server_running()` guard). -/
theorem C1_start_idempotent_when_running
    (env : MinecraftServer.StartEnv) (s : ServerState)
    (h : s.is_running = true)
    (alive spawnOk : Bool) (pid : Nat) (st : AdminPanel.AdminState)
    (h2 : AdminPanel.is_server_running alive st = true) :
    MinecraftServer.start env s = (true, s, []) ∧
    AdminPanel.start_server alive spawnOk pid st = (true, st, []) := by
  constructor
  · unfold MinecraftServer.start
    rw [if_pos h]
  · unfold AdminPanel.start_server
    rw [if_pos h2]

theorem C1_start_idempotent_when_running_witness :
    MinecraftServer.start envT sRun = (true, sRun, []) ∧
    AdminPanel.start_server true true 1 adminRun = (true, adminRun, []) :=
  C1_start_idempotent_when_running envT sRun rfl true true 1 adminRun rfl

/-- C2: the console output ring never exceeds its configured capacity —
each append (server `_capture_output` step with its configured
`max_console_lines` capacity, admin `read_server_output` step with its
hard-coded capacity 100) keeps the length within the capacity, and a run
of appends starting from the empty buffer leaves exactly the last
`capacity` lines in their original append order (oldest evicted first,
never reordered); `MinecraftServer.__init__` configures the capacity as
1000. -/
theorem C2_output_ring_bounded_fifo (cap : Nat) (log buf : List String)
    (l : String) (ls : List String)
    (hlog : log.length ≤ cap) (hbuf : buf.length ≤ 100) :
    (ringAppend cap log l).length ≤ cap ∧
    (adminRingAppend buf l).length ≤ 100 ∧
    List.foldl (ringAppend cap) [] ls = takeLast cap ls ∧
    List.foldl adminRingAppend [] ls = takeLast 100 ls ∧
    MinecraftServer.initState.max_console_lines = 1000 := by
  refine ⟨?_, ?_, ?_, ?_, rfl⟩
  · rw [ringAppend_eq_takeLast cap log l hlog, takeLast_length]
    omega
  · rw [adminRingAppend_eq_takeLast buf l hbuf, takeLast_length]
    omega
  · have h := foldl_ringAppend cap ls [] (by simp)
    simpa using h
  · have h := foldl_adminRingAppend ls [] (by simp)
    simpa using h

theorem C2_output_ring_bounded_fifo_witness :
    (ringAppend 2 ["a"] "x").length ≤ 2 ∧
    (adminRingAppend [] "x").length ≤ 100 ∧
    List.foldl (ringAppend 2) [] ["a", "b", "c"] = takeLast 2 ["a", "b", "c"] ∧
    List.foldl adminRingAppend [] ["a", "b", "c"] = takeLast 100 ["a", "b", "c"] ∧
    MinecraftServer.initState.max_console_lines = 1000 :=
  C2_output_ring_bounded_fifo 2 ["a"] [] "x" ["a", "b", "c"]
    (by decide) (by decide)

/-- C4: `stop()` while the server is not running (never started, already
stopped, or the capture thread saw end-of-stream and cleared
`is_running`) returns `True` immediately from its guard, with the state
unchanged and an empty effect trace: no command, signal, or I/O is sent
to any process. -/
theorem C4_stop_noop_when_stopped (env : MinecraftServer.StopEnv)
    (t : Nat) (s : ServerState)
    (h : s.is_running = false ∨ s.process = none) :
    MinecraftServer.stop env t s = (true, s, []) := by
  unfold MinecraftServer.stop
  rw [if_pos h]

theorem C4_stop_noop_when_stopped_witness :
    MinecraftServer.stop envStopFast 30 MinecraftServer.initState =
      (true, MinecraftServer.initState, []) :=
  C4_stop_noop_when_stopped envStopFast 30 MinecraftServer.initState
    (Or.inl rfl)

/-- C5: `send_command` when the lifecycle is not Running (`is_running`
false or process handle absent) always returns the not-running failure
(`False`) with an empty effect trace — no write or flush is performed on
any stream; likewise for the admin panel's `send_command` when its
`is_server_running()` poll is false. -/
theorem C5_send_command_fails_when_not_running
    (env : MinecraftServer.CmdEnv) (c : String) (s : ServerState)
    (h : s.is_running = false ∨ s.process = none)
    (alive writeOk : Bool) (c2 : String) (st : AdminPanel.AdminState)
    (h2 : AdminPanel.is_server_running alive st = false) :
    MinecraftServer.send_command env c s = (false, s, []) ∧
    AdminPanel.send_command alive writeOk c2 st = (false, st, []) := by
  constructor
  · unfold MinecraftServer.send_command
    rw [if_pos h]
  · unfold AdminPanel.send_command
    rw [if_pos h2]

theorem C5_send_command_fails_when_not_running_witness :
    MinecraftServer.send_command ⟨true⟩ "list" MinecraftServer.initState =
      (false, MinecraftServer.initState, []) ∧
    AdminPanel.send_command false true "list" ⟨some 1, []⟩ =
      (false, ⟨some 1, []⟩, []) :=
  C5_send_command_fails_when_not_running ⟨true⟩ "list"
    MinecraftServer.initState (Or.inl rfl) false true "list" ⟨some 1, []⟩ rfl

/-- C6: when `start()` spawns the child successfully but no console line
containing both sentinel fragments is observed during any of the 60
wait-loop iterations while the process stays alive (`is_running` is
still set each time), the loop times out and `start()` still returns
`True` with the supervisor marked running — the readiness timeout is a
soft failure. -/
theorem C6_readiness_timeout_soft (env : MinecraftServer.StartEnv)
    (s : ServerState) (hrun : s.is_running = false)
    (hspawn : env.spawnOk = true)
    (hobs : ∀ i, i < 60 → env.aliveAt i = true ∧
      MinecraftServer.scanReady (env.logAt i) = false) :
    (MinecraftServer.start env s).1 = true ∧
    (MinecraftServer.start env s).2.1.is_running = true := by
  have hw : MinecraftServer.startWait env 0 60 =
      MinecraftServer.StartOutcome.timeout :=
    startWait_timeout env 60 0 fun j hj1 hj2 => hobs j (by omega)
  unfold MinecraftServer.start
  rw [hrun, hspawn]
  simp only [Bool.false_eq_true, if_false, Bool.true_eq_false]
  rw [hw]
  exact ⟨rfl, rfl⟩

theorem C6_readiness_timeout_soft_witness :
    (MinecraftServer.start envT MinecraftServer.initState).1 = true ∧
    (MinecraftServer.start envT MinecraftServer.initState).2.1.is_running =
      true :=
  C6_readiness_timeout_soft envT MinecraftServer.initState rfl rfl
    (fun _ _ => ⟨rfl, rfl⟩)

/-- C7: when the OS cannot create the child process (`subprocess.Popen`
raises), `start()` returns `False` for that call, the `except` clause
leaves `is_running` false, the process field is exactly what it was
before the call (no new handle), and no spawn effect occurred. -/
theorem C7_spawn_failure (env : MinecraftServer.StartEnv)
    (s : ServerState) (hrun : s.is_running = false)
    (hspawn : env.spawnOk = false) :
    (MinecraftServer.start env s).1 = false ∧
    (MinecraftServer.start env s).2.1.is_running = false ∧
    (MinecraftServer.start env s).2.1.process = s.process ∧
    (MinecraftServer.start env s).2.2 = [] := by
  unfold MinecraftServer.start
  rw [hrun, hspawn]
  simp

theorem C7_spawn_failure_witness :
    (MinecraftServer.start ⟨false, 1, fun _ => true, fun _ => []⟩
      MinecraftServer.initState).1 = false ∧
    (MinecraftServer.start ⟨false, 1, fun _ => true, fun _ => []⟩
      MinecraftServer.initState).2.1.is_running = false ∧
    (MinecraftServer.start ⟨false, 1, fun _ => true, fun _ => []⟩
      MinecraftServer.initState).2.1.process =
        MinecraftServer.initState.process ∧
    (MinecraftServer.start ⟨false, 1, fun _ => true, fun _ => []⟩
      MinecraftServer.initState).2.2 = [] :=
  C7_spawn_failure ⟨false, 1, fun _ => true, fun _ => []⟩
    MinecraftServer.initState rfl rfl

theorem stop_eq_of_exited (env : MinecraftServer.StopEnv) (t : Nat)
    (s : ServerState)
    (hguard : ¬(s.is_running = false ∨ s.process = none))
    (hg : (MinecraftServer.stopGrace env.pollAt 0 t).1 = true) :
    MinecraftServer.stop env t s =
      (true, { s with is_running := false },
        [Eff.cmd "save-all", Eff.sleep 2, Eff.cmd "stop"] ++
          (MinecraftServer.stopGrace env.pollAt 0 t).2) := by
  unfold MinecraftServer.stop
  rw [if_neg hguard, if_pos hg]

theorem stop_eq_of_survived (env : MinecraftServer.StopEnv) (t : Nat)
    (s : ServerState)
    (hguard : ¬(s.is_running = false ∨ s.process = none))
    (hg : ¬((MinecraftServer.stopGrace env.pollAt 0 t).1 = true)) :
    MinecraftServer.stop env t s =
      (true, { s with is_running := false },
        [Eff.cmd "save-all", Eff.sleep 2, Eff.cmd "stop"] ++
          (MinecraftServer.stopGrace env.pollAt 0 t).2 ++
          ([Eff.terminate, Eff.sleep 2, Eff.poll] ++
            (if env.exitedAfterTerm then [] else [Eff.kill]))) := by
  unfold MinecraftServer.stop
  rw [if_neg hguard, if_neg hg]

/-- C3: `stop(timeout)` on a running server performs, in order: the
save-world command and a fixed 2-unit delay, the shutdown command, then
at most `timeout` once-per-unit liveness polls; if the process is still
alive it sends `terminate()`, waits a fixed 2 units, polls once more and
sends `kill()` exactly when still alive; it returns `True` on every path
with `is_running` cleared, the total slept time is bounded by the grace
period plus the fixed escalation intervals, and when a grace-period poll
observes the exit no terminate/kill signal is ever sent. -/
theorem C3_stop_graceful_then_forced (env : MinecraftServer.StopEnv)
    (t : Nat) (s : ServerState) (p : Nat)
    (hrun : s.is_running = true) (hp : s.process = some p) :
    (MinecraftServer.stop env t s).1 = true ∧
    (MinecraftServer.stop env t s).2.1 = { s with is_running := false } ∧
    (MinecraftServer.stop env t s).2.2.take 3 =
      [Eff.cmd "save-all", Eff.sleep 2, Eff.cmd "stop"] ∧
    countEff Eff.poll (MinecraftServer.stop env t s).2.2 ≤ t + 1 ∧
    sleepSum (MinecraftServer.stop env t s).2.2 ≤ 2 + t + 2 ∧
    ((∃ k, k < t ∧ env.pollAt k = true) →
      countEff Eff.terminate (MinecraftServer.stop env t s).2.2 = 0 ∧
      countEff Eff.kill (MinecraftServer.stop env t s).2.2 = 0) ∧
    ((∀ k, k < t → env.pollAt k = false) →
      (MinecraftServer.stop env t s).2.2 =
        [Eff.cmd "save-all", Eff.sleep 2, Eff.cmd "stop"] ++ graceTrace t ++
          ([Eff.terminate, Eff.sleep 2, Eff.poll] ++
            (if env.exitedAfterTerm then [] else [Eff.kill]))) := by
  have hguard : ¬(s.is_running = false ∨ s.process = none) := by
    simp [hrun, hp]
  obtain ⟨gterm, gkill, gpoll, gsleep⟩ := stopGrace_counts env.pollAt t 0
  have hpre_poll : countEff Eff.poll
      [Eff.cmd "save-all", Eff.sleep 2, Eff.cmd "stop"] = 0 := by decide
  have hpre_term : countEff Eff.terminate
      [Eff.cmd "save-all", Eff.sleep 2, Eff.cmd "stop"] = 0 := by decide
  have hpre_kill : countEff Eff.kill
      [Eff.cmd "save-all", Eff.sleep 2, Eff.cmd "stop"] = 0 := by decide
  have hpre_sleep : sleepSum
      [Eff.cmd "save-all", Eff.sleep 2, Eff.cmd "stop"] = 2 := by decide
  by_cases hg : (MinecraftServer.stopGrace env.pollAt 0 t).1 = true
  · rw [stop_eq_of_exited env t s hguard hg]
    refine ⟨rfl, rfl, rfl, ?_, ?_, ?_, ?_⟩
    · rw [countEff_append, hpre_poll]
      omega
    · rw [sleepSum_append, hpre_sleep]
      omega
    · intro _
      constructor
      · rw [countEff_append, hpre_term]
        omega
      · rw [countEff_append, hpre_kill]
        omega
    · intro hall
      exfalso
      rw [stopGrace_exits_iff env.pollAt t 0] at hg
      obtain ⟨k, hk, hpk⟩ := hg
      have := hall k hk
      rw [Nat.zero_add] at hpk
      rw [this] at hpk
      exact Bool.noConfusion hpk
  · rw [stop_eq_of_survived env t s hguard hg]
    have hesc_poll : ∀ b : Bool, countEff Eff.poll
        ([Eff.terminate, Eff.sleep 2, Eff.poll] ++
          (if b then ([] : List Eff) else [Eff.kill])) = 1 := by
      intro b
      cases b <;> decide
    have hesc_sleep : ∀ b : Bool, sleepSum
        ([Eff.terminate, Eff.sleep 2, Eff.poll] ++
          (if b then ([] : List Eff) else [Eff.kill])) = 2 := by
      intro b
      cases b <;> decide
    refine ⟨rfl, rfl, rfl, ?_, ?_, ?_, ?_⟩
    · rw [countEff_append, countEff_append, hpre_poll,
        hesc_poll env.exitedAfterTerm]
      omega
    · rw [sleepSum_append, sleepSum_append, hpre_sleep,
        hesc_sleep env.exitedAfterTerm]
      omega
    · intro hex
      exfalso
      obtain ⟨k, hk, hpk⟩ := hex
      apply hg
      rw [stopGrace_exits_iff env.pollAt t 0]
      refine ⟨k, hk, ?_⟩
      rw [Nat.zero_add]
      exact hpk
    · intro hall
      have htrace := stopGrace_trace_timeout env.pollAt t 0 (fun k hk => by
        rw [Nat.zero_add]
        exact hall k hk)
      rw [htrace]

theorem C3_stop_graceful_then_forced_witness :
    (MinecraftServer.stop envStopFast 5 sRun).1 = true ∧
    (MinecraftServer.stop envStopFast 5 sRun).2.1 =
      { sRun with is_running := false } ∧
    (MinecraftServer.stop envStopFast 5 sRun).2.2.take 3 =
      [Eff.cmd "save-all", Eff.sleep 2, Eff.cmd "stop"] ∧
    countEff Eff.poll (MinecraftServer.stop envStopFast 5 sRun).2.2 ≤ 5 + 1 ∧
    sleepSum (MinecraftServer.stop envStopFast 5 sRun).2.2 ≤ 2 + 5 + 2 ∧
    ((∃ k, k < 5 ∧ envStopFast.pollAt k = true) →
      countEff Eff.terminate (MinecraftServer.stop envStopFast 5 sRun).2.2 = 0 ∧
      countEff Eff.kill (MinecraftServer.stop envStopFast 5 sRun).2.2 = 0) ∧
    ((∀ k, k < 5 → envStopFast.pollAt k = false) →
      (MinecraftServer.stop envStopFast 5 sRun).2.2 =
        [Eff.cmd "save-all", Eff.sleep 2, Eff.cmd "stop"] ++ graceTrace 5 ++
          ([Eff.terminate, Eff.sleep 2, Eff.poll] ++
            (if envStopFast.exitedAfterTerm then [] else [Eff.kill]))) :=
  C3_stop_graceful_then_forced envStopFast 5 sRun 1 rfl rfl

/-- C8 (amended): in every state reachable from a fresh supervisor by
any interleaving of the public operations and the capture thread's
events, `is_running = true` implies the process handle is non-None.
(The converse direction of the claim's "iff" is refuted separately:
`stop` and `is_server_running` clear `is_running` without clearing
`self.process`.) -/
theorem C8_running_implies_live_handle (s : ServerState)
    (h : MinecraftServer.Reachable s) :
    s.is_running = true → s.process ≠ none := by
  induction h with
  | init =>
    intro hr
    exact absurd hr (by decide)
  | step_start env s hr ih =>
    unfold MinecraftServer.start
    by_cases hb : s.is_running = true
    · rw [if_pos hb]
      exact ih
    · rw [if_neg hb]
      by_cases hs : env.spawnOk = false
      · rw [if_pos hs]
        intro hfalse
        simp at hfalse
      · rw [if_neg hs]
        cases hW : MinecraftServer.startWait env 0 60 with
        | died =>
          intro hfalse
          simp at hfalse
        | ready =>
          intro _
          simp
        | timeout =>
          intro _
          simp
  | step_stop env t s hr ih =>
    unfold MinecraftServer.stop
    by_cases hb : s.is_running = false ∨ s.process = none
    · rw [if_pos hb]
      exact ih
    · rw [if_neg hb]
      by_cases hg : (MinecraftServer.stopGrace env.pollAt 0 t).1 = true
      · rw [if_pos hg]
        intro hfalse
        simp at hfalse
      · rw [if_neg hg]
        intro hfalse
        simp at hfalse
  | step_send env c s hr ih =>
    unfold MinecraftServer.send_command
    by_cases hb : s.is_running = false ∨ s.process = none
    · rw [if_pos hb]
      exact ih
    · rw [if_neg hb]
      by_cases hw : env.writeOk = true
      · rw [if_pos hw]
        exact ih
      · rw [if_neg hw]
        exact ih
  | step_check exited s hr ih =>
    unfold MinecraftServer.is_server_running
    by_cases hb : s.is_running = false ∨ s.process = none
    · rw [if_pos hb]
      exact ih
    · rw [if_neg hb]
      by_cases he : exited = true
      · rw [if_pos he]
        intro hfalse
        simp at hfalse
      · rw [if_neg he]
        exact ih
  | step_capture line s hr ih =>
    intro hr2
    exact ih hr2
  | step_eof s hr ih =>
    intro hfalse
    simp [MinecraftServer.capture_eof] at hfalse

theorem C8_running_implies_live_handle_witness :
    (MinecraftServer.start envReady MinecraftServer.initState).2.1.process ≠
      none :=
  C8_running_implies_live_handle _
    (MinecraftServer.Reachable.step_start envReady _
      MinecraftServer.Reachable.init)
    (by decide)

/-- C8 counterexample: the claimed "non-null iff running" invariant is
false on the code.  After a successful `start` followed by a graceful
`stop` — both reachable transitions — `is_running` is `False` but
`self.process` still holds the stale handle, because `stop` never clears
it. -/
theorem C8_handle_iff_running_counterexample :
    ¬(∀ s : ServerState, MinecraftServer.Reachable s →
        (s.process ≠ none ↔ s.is_running = true)) := by
  intro hall
  have hr : MinecraftServer.Reachable sStopped :=
    MinecraftServer.Reachable.step_stop envStopFast 30 _
      (MinecraftServer.Reachable.step_start envReady _
        MinecraftServer.Reachable.init)
  have hiff := hall sStopped hr
  have h1 : sStopped.process = some 1 := by decide
  have h2 : sStopped.is_running = false := by decide
  have h3 : sStopped.is_running = true := by
    apply hiff.mp
    rw [h1]
    intro hc
    exact Option.noConfusion hc
  rw [h2] at h3
  exact Bool.noConfusion h3

/-- C9 counterexample: the claim says a broken-pipe write failure in
`send_command` triggers a lifecycle re-check that corrects the state so
it is no longer reported Running.  On the code it does not: the `except`
clause only logs and returns `False`, so after a failed write on a
running state the supervisor still has `is_running = True`. -/
theorem C9_broken_pipe_counterexample :
    (MinecraftServer.send_command ⟨false⟩ "list" sRun).1 = false ∧
    (MinecraftServer.send_command ⟨false⟩ "list" sRun).2.1.is_running =
      true :=
  ⟨rfl, rfl⟩

/-- C9 (amended): when the write to the child's stdin fails while the
supervisor is Running, `send_command` catches the exception and reports
failure through its return value (`False`) — no crash — leaving the
state exactly as it was (the stale Running flag included); the lifecycle
is corrected only by a later `is_server_running()` call, whose OS poll
observing the exit reports `False` and clears `is_running`. -/
theorem C9_broken_pipe_caught_state_stale (c : String) (s : ServerState)
    (p : Nat) (hrun : s.is_running = true) (hp : s.process = some p) :
    MinecraftServer.send_command ⟨false⟩ c s = (false, s, [Eff.cmd c]) ∧
    (MinecraftServer.is_server_running true s).1 = false ∧
    (MinecraftServer.is_server_running true s).2.is_running = false := by
  have hguard : ¬(s.is_running = false ∨ s.process = none) := by
    simp [hrun, hp]
  refine ⟨?_, ?_, ?_⟩
  · unfold MinecraftServer.send_command
    rw [if_neg hguard]
    rfl
  · unfold MinecraftServer.is_server_running
    rw [if_neg hguard]
    rfl
  · unfold MinecraftServer.is_server_running
    rw [if_neg hguard]
    rfl

theorem C9_broken_pipe_caught_state_stale_witness :
    MinecraftServer.send_command ⟨false⟩ "list" sRun =
      (false, sRun, [Eff.cmd "list"]) ∧
    (MinecraftServer.is_server_running true sRun).1 = false ∧
    (MinecraftServer.is_server_running true sRun).2.is_running = false :=
  C9_broken_pipe_caught_state_stale "list" sRun 1 rfl rfl

/-- C10: the claim that no public operation ever propagates an exception
is violated by `backup_world`: `os.makedirs(backup_dir, exist_ok=True)`
is executed OUTSIDE the try block, so when it raises (e.g. `backup_dir`
names an existing regular file) the exception escapes the caller instead
of the documented `None` — evaluated here at such an input with the
world directory present. -/
theorem C10_backup_world_uncaught_exception :
    MinecraftServer.backup_world
        ⟨true, false, true, "20260101_000000"⟩ "backups"
        MinecraftServer.initState =
      (MinecraftServer.PyResult.raised "os.makedirs", []) := rfl
